import Mathlib

/-!
Verification of the mask-based image-editing subsystem of this repository
(components/ImageEditor.tsx and the surrounding app shell).

The embedding models:
* canvas rasters as width/height plus a pixel function into rational RGBA
  values on the premultiplied 0..255 scale (an alpha of 255 is fully opaque,
  and at full alpha the premultiplied components coincide with the straight
  byte values, so pure opaque white is (255,255,255,255) and pure opaque
  black is (0,0,0,255));
* the canvas compositing operators source-over and source-in by their
  Porter-Duff definitions, which is what the 2d canvas context computes for
  fillRect and drawImage under the corresponding globalCompositeOperation;
* the editor session (source image, reference image, prompt, result, drawing
  canvas, stroke-snapshot stack, loading flag) and the persisted edit
  history of the app shell as explicit state records, with handleGenerate,
  handleUndo, handleContinueEditing and handleEditComplete as pure state
  transformers parameterised over the outcome of the external edit call;
* JS strings as lists of characters, and the data-URL regex of
  dataUrlToSourceImage as a recursive matcher with the exact semantics of
  the source pattern (anchored at both ends, greedy character classes, and
  a dot that does not match line terminators).

The PNG encode/decode step of the mask (toDataURL with the lossless
image/png format) is identity on pixel content and is left out of the
raster model; mask claims are stated on the composited raster.
-/

set_option autoImplicit false

namespace ImageEditor

/-- An RGBA pixel with rational components on the premultiplied 0..255
scale: `a = 255` is fully opaque and the colour components are already
multiplied by `a / 255`. -/
@[ext]
structure Pixel where
  r : ℚ
  g : ℚ
  b : ℚ
  a : ℚ
deriving DecidableEq

/-- Fully transparent pixel, the content of a freshly sized or cleared
canvas (clearRect). -/
def transparentPix : Pixel := ⟨0, 0, 0, 0⟩

/-- Pure opaque black, the result of fillRect with fillStyle black. -/
def blackPix : Pixel := ⟨0, 0, 0, 255⟩

/-- Pure opaque white, the result of fillRect with fillStyle white. -/
def whitePix : Pixel := ⟨255, 255, 255, 255⟩

/-- Porter-Duff source-over on premultiplied pixels (the default canvas
globalCompositeOperation, used by drawImage in generateMaskImage). -/
def srcOver (s d : Pixel) : Pixel :=
  ⟨s.r + d.r * (255 - s.a) / 255,
   s.g + d.g * (255 - s.a) / 255,
   s.b + d.b * (255 - s.a) / 255,
   s.a + d.a * (255 - s.a) / 255⟩

/-- Porter-Duff source-in on premultiplied pixels: the source is kept only
where the destination is covered, everything else becomes transparent. -/
def srcIn (s d : Pixel) : Pixel :=
  ⟨s.r * d.a / 255, s.g * d.a / 255, s.b * d.a / 255, s.a * d.a / 255⟩

/-- A canvas raster: native pixel dimensions plus pixel content. -/
structure Canvas where
  width : ℕ
  height : ℕ
  pix : ℕ → ℕ → Pixel

/-- A canvas sized to the given dimensions with no content yet. -/
def blankCanvas (w h : ℕ) : Canvas := ⟨w, h, fun _ _ => transparentPix⟩

/-- The mask compositor of generateMaskImage, on the raster of the drawing
canvas: allocate a canvas of the same dimensions, fillRect black, drawImage
the drawing canvas with source-over, then fillRect white with source-in. -/
def generateMask (dc : Canvas) : Canvas :=
  { width := dc.width
    height := dc.height
    pix := fun x y => srcIn whitePix (srcOver (dc.pix x y) blackPix) }

/-- generateMaskImage: returns null when the drawing canvas ref is not
mounted (no source image loaded), otherwise the composited mask. The
getContext null branch of the source cannot fire on a freshly created
canvas element and is not modelled. -/
def generateMaskImage (dc : Option Canvas) : Option Canvas :=
  dc.map generateMask

/-- A decoded source image, as exposed by the Image element after load:
the natural (stored) pixel dimensions. -/
structure DecodedImage where
  naturalWidth : ℕ
  naturalHeight : ℕ

/-- The display surfaces produced by drawImageOnCanvas: the canvas pixel
buffers take the natural dimensions of the image, while the CSS display
size is the natural size scaled by min(1, containerWidth / naturalWidth). -/
structure Surfaces where
  drawingCanvas : Canvas
  displayedWidth : ℚ
  displayedHeight : ℚ

/-- drawImageOnCanvas: sizes both canvases to the natural dimensions of the
decoded image (which also clears the drawing layer) and lets CSS scale the
on-screen size by min(1, containerWidth / naturalWidth). -/
def drawImageOnCanvas (img : DecodedImage) (containerWidth : ℚ) : Surfaces :=
  let scale : ℚ := min 1 (containerWidth / img.naturalWidth)
  { drawingCanvas := blankCanvas img.naturalWidth img.naturalHeight
    displayedWidth := img.naturalWidth * scale
    displayedHeight := img.naturalHeight * scale }

/-- An on-screen bounding box as returned by getBoundingClientRect. -/
structure Rect where
  left : ℚ
  top : ℚ
  width : ℚ
  height : ℚ

/-- getMousePos: maps a client (CSS) pointer position into the native pixel
space of the canvas. -/
def getMousePos (canvas : Canvas) (rect : Rect) (clientX clientY : ℚ) : ℚ × ℚ :=
  ((clientX - rect.left) * ((canvas.width : ℚ) / rect.width),
   (clientY - rect.top) * ((canvas.height : ℚ) / rect.height))

/-- The brush width actually painted by draw: the display-pixel brush size
scaled by the native/display width ratio of the drawing canvas. -/
def nativeBrushSize (brushSize : ℚ) (canvas : Canvas) (rect : Rect) : ℚ :=
  brushSize * ((canvas.width : ℚ) / rect.width)

/-- A raw image value: base64 payload plus MIME type, with JS strings
embedded as character lists. -/
structure SourceImage where
  mimeType : List Char
  base64 : List Char
deriving DecidableEq

/-- Lowercase ASCII letter, the character class of the regex group. -/
def isLowerAlpha (c : Char) : Bool := 'a' ≤ c && c ≤ 'z'

/-- A JS regex line terminator, which the dot of the pattern never
matches: LF, CR, LINE SEPARATOR, PARAGRAPH SEPARATOR. -/
def isLineTerm (c : Char) : Bool :=
  c = '\n' || c = '\r' || c.val = 0x2028 || c.val = 0x2029

/-- Match a literal run of characters and return the remainder. -/
def dropLit : List Char → List Char → Option (List Char)
  | [], s => some s
  | _ :: _, [] => none
  | p :: ps, c :: cs => if c = p then dropLit ps cs else none

/-- Greedy run of lowercase letters and the remainder; the backtracking of
the regex engine never shortens this run because the character after the
group in the pattern is a literal semicolon, not a letter. -/
def takeLowerRun : List Char → List Char × List Char
  | [] => ([], [])
  | c :: cs =>
    if isLowerAlpha c then
      let p := takeLowerRun cs
      (c :: p.1, p.2)
    else ([], c :: cs)

/-- dataUrlToSourceImage: matches the anchored pattern consisting of the
literal data:, a group of image/ followed by one or more lowercase letters,
the literal ;base64, and a final nonempty group of dot characters running
to the end of the string. The dot of a JS regex does not match line
terminators, so the final group succeeds exactly when the remainder is
nonempty and free of line terminators. -/
def dataUrlToSourceImage (s : List Char) : Option SourceImage :=
  match dropLit ("data:image/".data) s with
  | none => none
  | some r1 =>
    let p := takeLowerRun r1
    if p.1 = [] then none
    else
      match dropLit (";base64,".data) p.2 with
      | none => none
      | some rest =>
        if rest = [] then none
        else if rest.any isLineTerm then none
        else some ⟨"image/".data ++ p.1, rest⟩

/-- Builds the data URL string the application produces for a source
image: data: plus MIME type plus ;base64, plus payload. -/
def mkDataUrl (mimeType base64 : List Char) : List Char :=
  "data:".data ++ mimeType ++ ";base64,".data ++ base64

/-- One persisted edit record, created by handleEditComplete: the id is
the completion-time clock value, the mask is kept as its raster content. -/
structure EditHistoryItem where
  id : ℕ
  sourceImage : SourceImage
  maskImage : Canvas
  referenceImage : Option SourceImage
  prompt : List Char
  resultImage : List Char

/-- The editor component state: source and reference images, prompt,
result data URL, the mounted drawing canvas (none before an image is
loaded), the stroke-snapshot stack, and the loading flag. -/
structure Session where
  image : Option SourceImage
  referenceImage : Option SourceImage
  prompt : List Char
  resultImage : Option (List Char)
  drawingCanvas : Option Canvas
  drawingHistory : List Canvas
  isLoading : Bool

/-- The editor together with the app-shell state it mutates through
onEditComplete: the persisted edit history and the Date.now clock, which
strictly increases across the asynchronous round trips of distinct edits. -/
structure AppState where
  session : Session
  editHistory : List EditHistoryItem
  now : ℕ

/-- handleEditComplete of the app shell: builds the new history item with
the completion-time id and prepends it (newest first) to the persisted
list. -/
def handleEditComplete (img : SourceImage) (mask : Canvas)
    (ref : Option SourceImage) (prompt resultImage : List Char)
    (now : ℕ) (hist : List EditHistoryItem) : List EditHistoryItem :=
  { id := now, sourceImage := img, maskImage := mask, referenceImage := ref,
    prompt := prompt, resultImage := resultImage } :: hist

/-- Classification of one submitEdit round trip. -/
inductive SubmitOutcome where
  | validationError
  | maskError
  | success
  | serviceError
deriving DecidableEq

/-- Outcome of the external edit call: a result data URL, or failure
(a thrown network/service error, or a null result, which handleGenerate
turns into a thrown error itself). -/
inductive ServiceResult where
  | ok (resultImage : List Char)
  | err

/-- Result of handleGenerate: the post state, the outcome class, and
whether the external request was sent at all. -/
structure SubmitResult where
  state : AppState
  outcome : SubmitOutcome
  requestSent : Bool

/-- handleGenerate: validates source and prompt (empty string is falsy),
produces the mask, and either returns early with no mutation, or performs
the round trip. The result display is cleared at submission start; on
success the result is stored and one history item is appended via
handleEditComplete; on failure only an alert is shown. The loading flag is
reset in the finally block on both paths. The stroke stack is never
touched. -/
def handleGenerate (svc : ServiceResult) (st : AppState) : SubmitResult :=
  match st.session.image with
  | none => ⟨st, .validationError, false⟩
  | some img =>
    if st.session.prompt = [] then ⟨st, .validationError, false⟩
    else
      match generateMaskImage st.session.drawingCanvas with
      | none => ⟨st, .maskError, false⟩
      | some mask =>
        match svc with
        | .ok r =>
          ⟨{ session := { st.session with resultImage := some r, isLoading := false }
             editHistory := handleEditComplete img mask st.session.referenceImage
               st.session.prompt r st.now st.editHistory
             now := st.now + 1 }, .success, true⟩
        | .err =>
          ⟨{ st with session :=
               { st.session with resultImage := none, isLoading := false } },
           .serviceError, true⟩

/-- A canvas with its pixel content cleared (clearRect over the full
surface). -/
def clearCanvas (c : Canvas) : Canvas :=
  { c with pix := fun _ _ => transparentPix }

/-- handleContinueEditing, including the effect chain it triggers: if a
result exists and parses as a data URL, the source is replaced by it, the
result display and the reference image are cleared, and the image-change
effect re-runs drawImageOnCanvas, whose clearMask empties the stroke stack
and clears the drawing layer. When there is no result, or the result data
URL does not match the pattern, nothing happens. -/
def handleContinueEditing (s : Session) : Session :=
  match s.resultImage with
  | none => s
  | some url =>
    match dataUrlToSourceImage url with
    | none => s
    | some newSource =>
      { s with
        image := some newSource
        resultImage := none
        referenceImage := none
        drawingHistory := []
        drawingCanvas := s.drawingCanvas.map clearCanvas }

/-- The drawing-layer undo state, generic over the snapshot type: the
stroke-snapshot stack and the visible layer content (none when the layer
is cleared). -/
structure DrawState (α : Type) where
  stack : List α
  layer : Option α

/-- handleUndo: no-op on an empty stack; otherwise drop the last snapshot,
clear the layer and repaint it from the new last snapshot when one
remains. -/
def handleUndo {α : Type} (s : DrawState α) : DrawState α :=
  if s.stack.length = 0 then s
  else
    { stack := s.stack.dropLast, layer := s.stack.dropLast.getLast? }

/-- stopDrawing: capture the layer content as a snapshot and push it. -/
def stopDrawing {α : Type} (snapshot : α) (s : DrawState α) : DrawState α :=
  { stack := s.stack ++ [snapshot], layer := some snapshot }

/-- Iterated successful submissions, one per result data URL. -/
def runEdits (rs : List (List Char)) (st : AppState) : AppState :=
  match rs with
  | [] => st
  | r :: rest => runEdits rest (handleGenerate (.ok r) st).state

/-- The accepted data-URL shape of the round-trip claim: the literal data:
plus a MIME type of image/ followed by one or more lowercase letters, plus
the literal ;base64, plus a nonempty payload. -/
def DataUrlShape (s : List Char) : Prop :=
  ∃ letters payload, letters ≠ [] ∧ (∀ c ∈ letters, isLowerAlpha c)
    ∧ payload ≠ []
    ∧ s = mkDataUrl ("image/".data ++ letters) payload

/-- Sample source image for concrete witnesses. -/
def sampleImage : SourceImage := ⟨"image/png".data, "QUJD".data⟩

/-- Sample ready state with a mounted drawing canvas and one snapshot. -/
def sampleState : AppState :=
  { session :=
      { image := some sampleImage
        referenceImage := none
        prompt := "add a pool".data
        resultImage := none
        drawingCanvas := some (blankCanvas 4 4)
        drawingHistory := [blankCanvas 4 4]
        isLoading := false }
    editHistory := []
    now := 5 }

/-- Sample state with no source image loaded. -/
def sampleNoImage : AppState :=
  { session :=
      { image := none
        referenceImage := none
        prompt := "add a pool".data
        resultImage := none
        drawingCanvas := none
        drawingHistory := []
        isLoading := false }
    editHistory := []
    now := 0 }

/-- Sample state with a source image and prompt but no mounted drawing
canvas. -/
def sampleNoCanvas : AppState :=
  { session :=
      { image := some sampleImage
        referenceImage := none
        prompt := "add a pool".data
        resultImage := none
        drawingCanvas := none
        drawingHistory := []
        isLoading := false }
    editHistory := []
    now := 0 }

/-- Session exhibiting the continue-editing no-op: a result exists but its
data URL has a MIME type outside the accepted pattern. -/
def svgSession : Session :=
  { image := some sampleImage
    referenceImage := none
    prompt := "p".data
    resultImage := some ("data:image/svg+xml;base64,AAAA".data)
    drawingCanvas := some (blankCanvas 4 4)
    drawingHistory := [blankCanvas 4 4]
    isLoading := false }

/-- Session whose result data URL does match the accepted shape. -/
def pngSession : Session :=
  { image := some sampleImage
    referenceImage := some sampleImage
    prompt := "p".data
    resultImage := some ("data:image/png;base64,QUJD".data)
    drawingCanvas := none
    drawingHistory := [blankCanvas 4 4]
    isLoading := false }

/-- Session whose result string is not a data URL at all. -/
def badUrlSession : Session :=
  { image := some sampleImage
    referenceImage := none
    prompt := "p".data
    resultImage := some ("result".data)
    drawingCanvas := none
    drawingHistory := []
    isLoading := false }

/-- Compositing any drawing-layer pixel over the opaque black fill and
then applying the source-in white fill yields pure opaque white: the black
fill already made the backdrop fully opaque, so the source-in fill keeps
its full coverage everywhere. -/
theorem srcIn_white_srcOver_black (p : Pixel) :
    srcIn whitePix (srcOver p blackPix) = whitePix := by
  ext <;> simp [srcIn, srcOver, whitePix, blackPix]

/-- C2: for any drawing-layer content, with partial alpha and anti-aliased
stroke edges included, every pixel of the composited mask is exactly pure
opaque black (0,0,0,255) or pure opaque white (255,255,255,255); no other
RGBA value occurs. -/
theorem generateMask_binary (dc : Canvas) (x y : ℕ) :
    (generateMask dc).pix x y = blackPix ∨ (generateMask dc).pix x y = whitePix :=
  Or.inr (srcIn_white_srcOver_black _)

/-- C1: evaluation at the failing input. On a 512 by 512 drawing layer
with no strokes at all, the composited mask pixel at the origin is pure
opaque white, not the pure opaque black required for untouched pixels: the
initial black fill makes the backdrop fully opaque everywhere, so the
subsequent source-in white fill covers the entire canvas, touched or not. -/
theorem generateMask_untouched_pixel_is_white :
    (generateMask (blankCanvas 512 512)).pix 0 0 = whitePix ∧ whitePix ≠ blackPix :=
  ⟨srcIn_white_srcOver_black _, by decide⟩

/-- C7: the mask generated for a loaded source image has exactly the
natural pixel dimensions of the image, whatever the container width that
determines the on-screen display size. -/
theorem generateMask_dimensions (img : DecodedImage) (containerWidth : ℚ) :
    (generateMask (drawImageOnCanvas img containerWidth).drawingCanvas).width
        = img.naturalWidth
      ∧ (generateMask (drawImageOnCanvas img containerWidth).drawingCanvas).height
        = img.naturalHeight :=
  ⟨rfl, rfl⟩

/-- C9: getMousePos scales the offsets from the bounding box by the
native over displayed ratio in each axis, the painted brush width is the
display brush size scaled by the same ratio, and a 40 display-pixel brush
on a 512 native-pixel canvas displayed at 256 CSS pixels paints an 80
native-pixel stroke. -/
theorem getMousePos_draw_scaling :
    (∀ (canvas : Canvas) (rect : Rect) (clientX clientY : ℚ),
        getMousePos canvas rect clientX clientY =
          ((clientX - rect.left) * (canvas.width : ℚ) / rect.width,
           (clientY - rect.top) * (canvas.height : ℚ) / rect.height))
      ∧ (∀ (brushSize : ℚ) (canvas : Canvas) (rect : Rect),
          nativeBrushSize brushSize canvas rect
            = brushSize * (canvas.width : ℚ) / rect.width)
      ∧ nativeBrushSize 40 (blankCanvas 512 512) ⟨0, 0, 256, 256⟩ = 80 := by
  refine ⟨fun canvas rect x y => ?_, fun b canvas rect => ?_, ?_⟩
  · simp [getMousePos, mul_div_assoc]
  · simp [nativeBrushSize, mul_div_assoc]
  · norm_num [nativeBrushSize, blankCanvas]

/-- C6: undo on an empty stack is a no-op; on a stack of N + 1 snapshots
it drops exactly the last one, leaving N, and repaints the layer to the
new last snapshot, or clears it when none remains; and whenever the layer
matched the top of the stack before the call, it still does afterwards. -/
theorem handleUndo_spec {α : Type} (s : DrawState α) :
    (s.stack = [] → handleUndo s = s)
      ∧ (∀ n : ℕ, s.stack.length = n + 1 →
          (handleUndo s).stack = s.stack.dropLast
            ∧ (handleUndo s).stack.length = n
            ∧ (handleUndo s).layer = s.stack.dropLast.getLast?)
      ∧ (s.layer = s.stack.getLast? →
          (handleUndo s).layer = (handleUndo s).stack.getLast?) := by
  refine ⟨fun h => ?_, fun n hn => ?_, fun hinv => ?_⟩
  · simp [handleUndo, h]
  · have hne : ¬ s.stack.length = 0 := by omega
    refine ⟨by simp [handleUndo, hne], ?_, by simp [handleUndo, hne]⟩
    simp [handleUndo, hne, hn]
  · by_cases h : s.stack.length = 0
    · have hnil : s.stack = [] := List.length_eq_zero.mp h
      simpa [handleUndo, h, hnil] using hinv.trans (by simp [hnil])
    · simp [handleUndo, h]

/-- Witness for the undo theorem at two concrete stacks. -/
theorem handleUndo_spec_witness :
    handleUndo (⟨[], some 7⟩ : DrawState ℕ) = ⟨[], some 7⟩
      ∧ (handleUndo (⟨[5, 9], some 9⟩ : DrawState ℕ)).stack = [5]
      ∧ (handleUndo (⟨[5, 9], some 9⟩ : DrawState ℕ)).layer = some 5 := by
  have h1 := (handleUndo_spec (⟨[], some 7⟩ : DrawState ℕ)).1 rfl
  have h2 := (handleUndo_spec (⟨[5, 9], some 9⟩ : DrawState ℕ)).2.1 1 rfl
  exact ⟨h1, by simpa using h2.1, by simpa using h2.2.2⟩

/-- C3: when the preconditions pass and the external edit call fails, no
history entry is created; the source image, prompt, stroke stack,
reference image and drawing canvas are identical before and after; the
session is back to Ready (not loading); and the outcome is the service
error class. -/
theorem handleGenerate_err_no_mutation (st : AppState) (img : SourceImage)
    (dc : Canvas) (himg : st.session.image = some img)
    (hp : st.session.prompt ≠ []) (hdc : st.session.drawingCanvas = some dc) :
    (handleGenerate .err st).state.editHistory = st.editHistory
      ∧ (handleGenerate .err st).state.session.image = st.session.image
      ∧ (handleGenerate .err st).state.session.prompt = st.session.prompt
      ∧ (handleGenerate .err st).state.session.drawingHistory
          = st.session.drawingHistory
      ∧ (handleGenerate .err st).state.session.referenceImage
          = st.session.referenceImage
      ∧ (handleGenerate .err st).state.session.drawingCanvas
          = st.session.drawingCanvas
      ∧ (handleGenerate .err st).state.session.isLoading = false
      ∧ (handleGenerate .err st).outcome = .serviceError := by
  simp [handleGenerate, himg, hp, generateMaskImage, hdc]

/-- Witness for the failure no-mutation theorem at the sample state. -/
theorem handleGenerate_err_no_mutation_witness :
    (handleGenerate .err sampleState).state.editHistory = sampleState.editHistory
      ∧ (handleGenerate .err sampleState).state.session.image
          = sampleState.session.image
      ∧ (handleGenerate .err sampleState).state.session.prompt
          = sampleState.session.prompt
      ∧ (handleGenerate .err sampleState).state.session.drawingHistory
          = sampleState.session.drawingHistory
      ∧ (handleGenerate .err sampleState).state.session.referenceImage
          = sampleState.session.referenceImage
      ∧ (handleGenerate .err sampleState).state.session.drawingCanvas
          = sampleState.session.drawingCanvas
      ∧ (handleGenerate .err sampleState).state.session.isLoading = false
      ∧ (handleGenerate .err sampleState).outcome = .serviceError :=
  handleGenerate_err_no_mutation sampleState sampleImage (blankCanvas 4 4)
    rfl (by decide) rfl

/-- C4: precondition enforcement of submitEdit: with no source image or an
empty prompt the call returns the validation error with the state returned
untouched and no request sent; with valid inputs but no initialized
drawing surface the mask production returns null and the call returns the
mask error, again with the state untouched and no request sent. -/
theorem handleGenerate_preconditions (svc : ServiceResult) (st : AppState) :
    (st.session.image = none ∨ st.session.prompt = [] →
        handleGenerate svc st = ⟨st, .validationError, false⟩)
      ∧ (st.session.image ≠ none → st.session.prompt ≠ [] →
          st.session.drawingCanvas = none →
          handleGenerate svc st = ⟨st, .maskError, false⟩) := by
  constructor
  · rintro (h | h)
    · simp [handleGenerate, h]
    · cases himg : st.session.image <;> simp [handleGenerate, himg, h]
  · intro h1 h2 h3
    cases himg : st.session.image with
    | none => exact absurd himg h1
    | some img => simp [handleGenerate, himg, h2, generateMaskImage, h3]

/-- Witness for the precondition theorem at both error classes. -/
theorem handleGenerate_preconditions_witness :
    handleGenerate .err sampleNoImage = ⟨sampleNoImage, .validationError, false⟩
      ∧ handleGenerate .err sampleNoCanvas = ⟨sampleNoCanvas, .maskError, false⟩ :=
  ⟨(handleGenerate_preconditions .err sampleNoImage).1 (Or.inl rfl),
   (handleGenerate_preconditions .err sampleNoCanvas).2
     (by simp [sampleNoCanvas]) (by decide) rfl⟩

/-- The post state of one successful submission, in closed form. -/
theorem handleGenerate_ok_step (st : AppState) (img : SourceImage)
    (dc : Canvas) (r : List Char) (himg : st.session.image = some img)
    (hp : st.session.prompt ≠ []) (hdc : st.session.drawingCanvas = some dc) :
    (handleGenerate (.ok r) st).state =
      { session := { st.session with resultImage := some r, isLoading := false }
        editHistory :=
          { id := st.now, sourceImage := img, maskImage := generateMask dc
            referenceImage := st.session.referenceImage
            prompt := st.session.prompt, resultImage := r } :: st.editHistory
        now := st.now + 1 } := by
  simp [handleGenerate, himg, hp, generateMaskImage, hdc, handleEditComplete]

/-- C5: M successful submissions append exactly M history items and
nothing else: the persisted list grows by M at the front, the previous
entries reappear unchanged below the new ones, ids strictly decrease from
head to tail (newest first by completion time, with the clock strictly
increasing across round trips), and the in-session stroke stack is
untouched. -/
theorem runEdits_history (rs : List (List Char)) (st : AppState)
    (img : SourceImage) (dc : Canvas) (himg : st.session.image = some img)
    (hp : st.session.prompt ≠ []) (hdc : st.session.drawingCanvas = some dc)
    (hlt : ∀ it ∈ st.editHistory, it.id < st.now)
    (hsort : List.Pairwise (fun a b => b.id < a.id) st.editHistory) :
    (runEdits rs st).editHistory.length = rs.length + st.editHistory.length
      ∧ (runEdits rs st).editHistory.drop rs.length = st.editHistory
      ∧ List.Pairwise (fun a b => b.id < a.id) (runEdits rs st).editHistory
      ∧ (runEdits rs st).session.drawingHistory = st.session.drawingHistory := by
  induction rs generalizing st with
  | nil => exact ⟨by simp [runEdits], by simp [runEdits], by simpa [runEdits] using hsort,
      by simp [runEdits]⟩
  | cons r rest ih =>
    have hstep := handleGenerate_ok_step st img dc r himg hp hdc
    have h1 : (handleGenerate (.ok r) st).state.session.image = some img := by
      rw [hstep]; exact himg
    have h2 : (handleGenerate (.ok r) st).state.session.prompt ≠ [] := by
      rw [hstep]; exact hp
    have h3 : (handleGenerate (.ok r) st).state.session.drawingCanvas = some dc := by
      rw [hstep]; exact hdc
    have hhist : (handleGenerate (.ok r) st).state.editHistory
        = { id := st.now, sourceImage := img, maskImage := generateMask dc
            referenceImage := st.session.referenceImage
            prompt := st.session.prompt, resultImage := r } :: st.editHistory := by
      rw [hstep]
    have hnow : (handleGenerate (.ok r) st).state.now = st.now + 1 := by
      rw [hstep]
    have h4 : ∀ it ∈ (handleGenerate (.ok r) st).state.editHistory,
        it.id < (handleGenerate (.ok r) st).state.now := by
      rw [hhist, hnow]
      intro it hit
      rcases List.mem_cons.mp hit with h | h
      · subst h; simp
      · have := hlt it h; omega
    have h5 : List.Pairwise (fun a b => b.id < a.id)
        (handleGenerate (.ok r) st).state.editHistory := by
      rw [hhist]
      refine List.Pairwise.cons ?_ hsort
      intro b hb
      simpa using hlt b hb
    have hih := ih ((handleGenerate (.ok r) st).state) h1 h2 h3 h4 h5
    have hrun : runEdits (r :: rest) st
        = runEdits rest (handleGenerate (.ok r) st).state := rfl
    refine ⟨?_, ?_, ?_, ?_⟩
    · rw [hrun, hih.1, hhist]
      simp [List.length_cons]
      omega
    · rw [hrun]
      have hdrop := hih.2.1
      rw [hhist] at hdrop
      have hkey : (runEdits rest (handleGenerate (.ok r) st).state).editHistory.drop
          (rest.length + 1) = st.editHistory := by
        rw [← List.drop_drop, hdrop]
        simp
      simpa using hkey
    · rw [hrun]; exact hih.2.2.1
    · rw [hrun, hih.2.2.2, hstep]

/-- Witness for the history theorem: two successful edits on the sample
state. -/
theorem runEdits_history_witness :
    (runEdits ["a".data, "b".data] sampleState).editHistory.length = 2
      ∧ (runEdits ["a".data, "b".data] sampleState).editHistory.drop 2 = []
      ∧ List.Pairwise (fun a b => b.id < a.id)
          (runEdits ["a".data, "b".data] sampleState).editHistory
      ∧ (runEdits ["a".data, "b".data] sampleState).session.drawingHistory
          = sampleState.session.drawingHistory := by
  have h := runEdits_history ["a".data, "b".data] sampleState sampleImage
    (blankCanvas 4 4) rfl (by decide) rfl (by simp [sampleState])
    (by simp [sampleState])
  exact ⟨by simpa [sampleState] using h.1, by simpa [sampleState] using h.2.1,
    h.2.2.1, h.2.2.2⟩

/-- C8 counterexample: with a result image present whose data URL has the
MIME type image/svg+xml, continue editing changes nothing at all: in
particular the stroke stack stays nonempty and the source image is not
replaced, contrary to the claim that the operation clears the stack and
swaps in the result whenever a result image exists. -/
theorem handleContinueEditing_svg_noop :
    svgSession.resultImage ≠ none
      ∧ handleContinueEditing svgSession = svgSession
      ∧ svgSession.drawingHistory ≠ [] := by
  refine ⟨by simp [svgSession], rfl, by simp [svgSession]⟩

/-- C8 amended: when a result image exists and its data URL matches the
accepted shape, continue editing replaces the source with the parsed
result, clears the result display, the reference image and the stroke
stack (leaving the prompt alone); when the result data URL does not match
the pattern, the operation is a silent no-op. -/
theorem handleContinueEditing_spec (s : Session) (url : List Char)
    (hres : s.resultImage = some url) :
    (∀ newSource, dataUrlToSourceImage url = some newSource →
        (handleContinueEditing s).image = some newSource
          ∧ (handleContinueEditing s).resultImage = none
          ∧ (handleContinueEditing s).referenceImage = none
          ∧ (handleContinueEditing s).drawingHistory = []
          ∧ (handleContinueEditing s).prompt = s.prompt)
      ∧ (dataUrlToSourceImage url = none → handleContinueEditing s = s) := by
  constructor
  · intro ns hns
    simp [handleContinueEditing, hres, hns]
  · intro hn
    simp [handleContinueEditing, hres, hn]

/-- Witness for the amended continue-editing theorem on both branches. -/
theorem handleContinueEditing_spec_witness :
    (handleContinueEditing pngSession).image
        = some ⟨"image/png".data, "QUJD".data⟩
      ∧ (handleContinueEditing pngSession).drawingHistory = []
      ∧ (handleContinueEditing pngSession).resultImage = none
      ∧ handleContinueEditing svgSession = svgSession := by
  have h1 := (handleContinueEditing_spec pngSession
      ("data:image/png;base64,QUJD".data) rfl).1
      ⟨"image/png".data, "QUJD".data⟩ rfl
  have h2 := (handleContinueEditing_spec svgSession
      ("data:image/svg+xml;base64,AAAA".data) rfl).2 rfl
  exact ⟨h1.1, h1.2.2.2.1, h1.2.1, h2⟩

/-- Matching a literal run against itself followed by a remainder yields
the remainder. -/
theorem dropLit_append (p r : List Char) : dropLit p (p ++ r) = some r := by
  induction p with
  | nil => rfl
  | cons c cs ih => simp [dropLit, ih]

/-- A successful literal match decomposes the input. -/
theorem dropLit_eq_some (p : List Char) :
    ∀ s r, dropLit p s = some r → s = p ++ r := by
  induction p with
  | nil =>
    intro s r h
    simp [dropLit] at h
    simpa using h
  | cons c cs ih =>
    intro s r h
    cases s with
    | nil => simp [dropLit] at h
    | cons d ds =>
      simp only [dropLit] at h
      by_cases hd : d = c
      · subst hd
        rw [if_pos rfl] at h
        have := ih ds r h
        simp [this]
      · rw [if_neg hd] at h
        exact absurd h (by simp)

/-- The greedy lowercase run consumes exactly a leading lowercase block
when the character right after the block is not lowercase. -/
theorem takeLowerRun_append (L : List Char) (c0 : Char) (r : List Char)
    (hL : ∀ c ∈ L, isLowerAlpha c) (hc : ¬ isLowerAlpha c0) :
    takeLowerRun (L ++ c0 :: r) = (L, c0 :: r) := by
  induction L with
  | nil => simp [takeLowerRun, hc]
  | cons c cs ih =>
    have hcl : isLowerAlpha c := hL c (by simp)
    have ih2 := ih (fun x hx => hL x (by simp [hx]))
    simp [takeLowerRun, hcl, ih2]

/-- The greedy lowercase run decomposes its input and yields only
lowercase characters. -/
theorem takeLowerRun_eq (s : List Char) :
    s = (takeLowerRun s).1 ++ (takeLowerRun s).2
      ∧ ∀ c ∈ (takeLowerRun s).1, isLowerAlpha c := by
  induction s with
  | nil => simp [takeLowerRun]
  | cons c cs ih =>
    by_cases hc : isLowerAlpha c
    · constructor
      · conv_lhs => rw [ih.1]
        simp [takeLowerRun, hc]
      · intro x hx
        simp only [takeLowerRun, hc, if_true] at hx
        rcases List.mem_cons.mp hx with h | h
        · subst h; exact hc
        · exact ih.2 x h
    · simp [takeLowerRun, hc]

/-- C10 counterexample: a nonempty base64 payload containing a line feed
defeats the round trip, because the dot of the pattern does not match line
terminators: the constructed data URL parses to null rather than back to
the source image. -/
theorem dataUrlToSourceImage_newline_counterexample :
    ("A\nB".data : List Char) ≠ []
      ∧ dataUrlToSourceImage (mkDataUrl ("image/png".data) ("A\nB".data)) = none
      ∧ dataUrlToSourceImage (mkDataUrl ("image/png".data) ("A\nB".data))
          ≠ some ⟨"image/png".data, "A\nB".data⟩ := by
  refine ⟨by decide, by decide, by decide⟩

/-- C10 amended: the parser inverts data-URL construction for every source
image whose MIME type is image/ followed by one or more lowercase letters
and whose base64 payload is nonempty and free of line terminators (which
the dot of the pattern cannot match); whenever the parser returns a source
image the input string had the accepted shape, so every string without
that shape parses to null; and continue editing on a session whose result
data URL does not parse leaves the session unchanged. -/
theorem dataUrlToSourceImage_spec :
    (∀ letters payload, letters ≠ [] → (∀ c ∈ letters, isLowerAlpha c) →
        payload ≠ [] → (∀ c ∈ payload, isLineTerm c = false) →
        dataUrlToSourceImage (mkDataUrl ("image/".data ++ letters) payload)
          = some ⟨"image/".data ++ letters, payload⟩)
      ∧ (∀ s img, dataUrlToSourceImage s = some img → DataUrlShape s)
      ∧ (∀ sess url, sess.resultImage = some url →
          dataUrlToSourceImage url = none → handleContinueEditing sess = sess) := by
  refine ⟨?_, ?_, ?_⟩
  · intro L P hL hlow hP hterm
    have hsplit : mkDataUrl ("image/".data ++ L) P
        = "data:image/".data ++ (L ++ (";base64,".data ++ P)) := by
      simp [mkDataUrl]
    have h1 : dropLit ("data:image/".data) (mkDataUrl ("image/".data ++ L) P)
        = some (L ++ (";base64,".data ++ P)) := by
      rw [hsplit]; exact dropLit_append _ _
    have hsemi : (";base64,".data : List Char) ++ P
        = ';' :: ("base64,".data ++ P) := rfl
    have h2 : takeLowerRun (L ++ (";base64,".data ++ P))
        = (L, ";base64,".data ++ P) := by
      rw [hsemi]
      exact takeLowerRun_append L ';' _ hlow (by decide)
    have h3 : dropLit (";base64,".data) ((";base64,".data : List Char) ++ P)
        = some P := dropLit_append _ _
    have hany : P.any isLineTerm = false := by
      rw [List.any_eq_false]
      intro x hx
      simp [hterm x hx]
    simp only [dataUrlToSourceImage, h1, h2, h3]
    simp [hP, hL, hany]
  · intro s img h
    simp only [dataUrlToSourceImage] at h
    cases h1 : dropLit ("data:image/".data) s with
    | none => rw [h1] at h; simp at h
    | some r1 =>
      simp only [h1] at h
      obtain ⟨p1, p2, hp⟩ : ∃ p1 p2, takeLowerRun r1 = (p1, p2) := ⟨_, _, rfl⟩
      have hdec := (takeLowerRun_eq r1).1
      have hlow1 := (takeLowerRun_eq r1).2
      rw [hp] at h hdec hlow1
      by_cases hemp : p1 = []
      · simp [hemp] at h
      · cases h2 : dropLit (";base64,".data) p2 with
        | none => simp [hemp, h2] at h
        | some rest =>
          by_cases hr : rest = []
          · simp [hemp, h2, hr] at h
          · refine ⟨p1, rest, hemp, hlow1, hr, ?_⟩
            have hs1 := dropLit_eq_some _ _ _ h1
            have hs3 := dropLit_eq_some _ _ _ h2
            have hlit : ("data:".data : List Char) ++ "image/".data
                = "data:image/".data := rfl
            rw [hs1, hdec, hs3, mkDataUrl, ← hlit]
            simp [List.append_assoc]
  · intro sess url hres hn
    simp [handleContinueEditing, hres, hn]

/-- Witness for the amended data-URL theorem on all three parts. -/
theorem dataUrlToSourceImage_spec_witness :
    dataUrlToSourceImage (mkDataUrl ("image/".data ++ "jpeg".data) ("Zm9v".data))
        = some ⟨"image/".data ++ "jpeg".data, "Zm9v".data⟩
      ∧ DataUrlShape ("data:image/webp;base64,AA".data)
      ∧ handleContinueEditing badUrlSession = badUrlSession := by
  refine ⟨dataUrlToSourceImage_spec.1 ("jpeg".data) ("Zm9v".data) (by decide)
      (by decide) (by decide) (by decide), ?_, ?_⟩
  · exact dataUrlToSourceImage_spec.2.1 _ ⟨"image/webp".data, "AA".data⟩ rfl
  · exact dataUrlToSourceImage_spec.2.2 badUrlSession ("result".data) rfl rfl

end ImageEditor
